import Mathlib

/-!
# Verification of the invoicing application core (src/invoicing.py)

Shallow embedding of the core data model and operations of the invoicing
application: the Gregorian date arithmetic used by the recurrence scheduler
(`datetime.date`, `timedelta`, `replace`), the VAT money calculator, the
sequence-number generator over the `Counters` table, and the document
lifecycle operations (add/update/cancel invoice, convert estimate,
generate next recurring invoice).

Python floats are modelled as rationals, dates as year/month/day triples
with Python's proleptic-Gregorian ordinal arithmetic, the SQLite store as
lists of records, and `datetime.now()` as an explicit `today` parameter.
-/

namespace Invoicing

/-! ## Calendar: Python `datetime.date` arithmetic

`datetime.date` is a (year, month, day) triple; `date + timedelta(days=k)`
converts to the proleptic-Gregorian ordinal (0001-01-01 is ordinal 1),
adds `k`, and converts back.  We embed exactly that. -/

/-- Gregorian leap-year rule, as in Python's `calendar.isleap`. -/
def isLeap (y : Nat) : Bool :=
  y % 4 == 0 && (y % 100 != 0 || y % 400 == 0)

/-- Number of days in a year with the given leap flag. -/
def daysInYear (leap : Bool) : Nat :=
  if leap then 366 else 365

/-- Number of days of month `m` (1-based); months outside 1..12 never occur
in valid dates and are given the junk value 31. -/
def daysInMonth (leap : Bool) (m : Nat) : Nat :=
  if m = 2 then (if leap then 29 else 28)
  else if m = 4 || m = 6 || m = 9 || m = 11 then 30
  else 31

/-- Days of the year strictly before month `m` (1-based). -/
def daysBeforeMonth (leap : Bool) (m : Nat) : Nat :=
  let f : Nat := if leap then 1 else 0
  match m with
  | 1 => 0
  | 2 => 31
  | 3 => 59 + f
  | 4 => 90 + f
  | 5 => 120 + f
  | 6 => 151 + f
  | 7 => 181 + f
  | 8 => 212 + f
  | 9 => 243 + f
  | 10 => 273 + f
  | 11 => 304 + f
  | 12 => 334 + f
  | _ => 0

/-- Recover (month, day) from a 0-based day-of-year offset. -/
def monthDay (leap : Bool) (r : Nat) : Nat × Nat :=
  let f : Nat := if leap then 1 else 0
  if r < 31 then (1, r + 1)
  else if r < 59 + f then (2, r - 31 + 1)
  else if r < 90 + f then (3, r - (59 + f) + 1)
  else if r < 120 + f then (4, r - (90 + f) + 1)
  else if r < 151 + f then (5, r - (120 + f) + 1)
  else if r < 181 + f then (6, r - (151 + f) + 1)
  else if r < 212 + f then (7, r - (181 + f) + 1)
  else if r < 243 + f then (8, r - (212 + f) + 1)
  else if r < 273 + f then (9, r - (243 + f) + 1)
  else if r < 304 + f then (10, r - (273 + f) + 1)
  else if r < 334 + f then (11, r - (304 + f) + 1)
  else (12, r - (334 + f) + 1)

/-- Total number of days in the years 1..y. -/
def daysUpTo : Nat → Nat
  | 0 => 0
  | y + 1 => daysUpTo y + daysInYear (isLeap (y + 1))

/-- A calendar date, as Python's `datetime.date` triple. -/
structure Date where
  year : Nat
  month : Nat
  day : Nat
  deriving DecidableEq

/-- The dates representable by `datetime.date` (year ≥ MINYEAR = 1). -/
def isValidDate (d : Date) : Prop :=
  1 ≤ d.year ∧ 1 ≤ d.month ∧ d.month ≤ 12 ∧ 1 ≤ d.day ∧
    d.day ≤ daysInMonth (isLeap d.year) d.month

instance (d : Date) : Decidable (isValidDate d) := by
  unfold isValidDate; exact inferInstance

/-- `date.toordinal()`: 0001-01-01 has ordinal 1. -/
def toOrdinal (d : Date) : Nat :=
  daysUpTo (d.year - 1) + daysBeforeMonth (isLeap d.year) d.month + d.day

/-- Walk years forward from `y`, consuming the 0-based offset `n`; the fuel
bounds the recursion (any `fuel > n` suffices, as `n` shrinks every step). -/
def findYearAux : Nat → Nat → Nat → Nat × Nat
  | 0, y, n => (y, n)
  | fuel + 1, y, n =>
    if n < daysInYear (isLeap y) then (y, n)
    else findYearAux fuel (y + 1) (n - daysInYear (isLeap y))

/-- `date.fromordinal(n)` for `n ≥ 1`. -/
def fromOrdinal (n : Nat) : Date :=
  let p := findYearAux n 1 (n - 1)
  let md := monthDay (isLeap p.1) p.2
  ⟨p.1, md.1, md.2⟩

/-- `d + timedelta(days = k)`. -/
def addDays (d : Date) (k : Nat) : Date :=
  fromOrdinal (toOrdinal d + k)

/-- Python's `<` on dates: lexicographic on the (year, month, day) triple. -/
def dateLt (a b : Date) : Prop :=
  a.year < b.year ∨ (a.year = b.year ∧
    (a.month < b.month ∨ (a.month = b.month ∧ a.day < b.day)))

instance (a b : Date) : Decidable (dateLt a b) := by
  unfold dateLt; exact inferInstance

/-! ## The recurrence scheduler's date advance

`generate_next_invoice` advances the next-invoice date by
`(d + timedelta(days=off)).replace(day = min(d.day, (d + timedelta(days=off)).day))`
with `off` 31 / 92 / 366 for monthly / quarterly / annually, and leaves the
date unchanged for any other frequency value. -/

/-- One advance step at a fixed day offset, from `generate_next_invoice`. -/
def advanceDate (d : Date) (off : Nat) : Date :=
  let s := addDays d off
  ⟨s.year, s.month, min d.day s.day⟩

/-- The next candidate date for a recurrence frequency (`None` or an
unrecognised frequency leaves the date unchanged, as the if/elif chain does). -/
def candidateNext (d : Date) (freq : Option String) : Date :=
  if freq = some "monthly" then advanceDate d 31
  else if freq = some "quarterly" then advanceDate d 92
  else if freq = some "annually" then advanceDate d 366
  else d

/-- The advance the spec describes instead: clamp the day-of-month of the
shifted date to `min(original.day, last day of the result month)`.
Modelled from the spec for comparison with `advanceDate`. -/
def advanceDateSpec (d : Date) (off : Nat) : Date :=
  let s := addDays d off
  ⟨s.year, s.month, min d.day (daysInMonth (isLeap s.year) s.month)⟩

/-! ## Money/VAT calculator

`calculate_line_item_amounts` and `calculate_overall_totals`; Python floats
are modelled as rationals.  A form line item's `quantity`/`unitPrice` cell
may hold a value that `float()` rejects with `ValueError` (a non-numeric
string); `calculate_overall_totals` catches that and skips the item. -/

/-- A value in a line-item field: a number, or a non-numeric string on
which Python's `float()` raises `ValueError`. -/
inductive Val where
  | num (q : ℚ)
  | nonNum (s : String)
  deriving DecidableEq

/-- `float(v)`: `none` models the `ValueError` raise. -/
def parseFloat : Val → Option ℚ
  | .num q => some q
  | .nonNum _ => none

/-- A raw (form-level) line item before derived amounts are stored. -/
structure RawItem where
  description : String
  quantity : Val
  unitPrice : Val
  deriving DecidableEq

/-- `calculate_line_item_amounts(quantity, unit_price, vat_rate)`. -/
def calculate_line_item_amounts (quantity unit_price vat_rate : ℚ) : ℚ × ℚ × ℚ :=
  let amount_excl_vat := quantity * unit_price
  let vat_amount := amount_excl_vat * (vat_rate / 100)
  let amount_incl_vat := amount_excl_vat + vat_amount
  (amount_excl_vat, vat_amount, amount_incl_vat)

/-- `calculate_overall_totals(line_items, vat_rate)`: accumulate the three
totals, skipping any item whose quantity or unit price fails to parse. -/
def calculate_overall_totals (line_items : List RawItem) (vat_rate : ℚ) :
    ℚ × ℚ × ℚ :=
  line_items.foldl
    (fun acc item =>
      match parseFloat item.quantity, parseFloat item.unitPrice with
      | some qty, some price =>
        let r := calculate_line_item_amounts qty price vat_rate
        (acc.1 + r.1, acc.2.1 + r.2.1, acc.2.2 + r.2.2)
      | _, _ => acc)
    (0, 0, 0)

/-- Modelled from the spec: `documentTotals` as the element-wise sum of
`lineAmounts` over all line items, for comparison with
`calculate_overall_totals`. -/
def documentTotalsSpec (line_items : List RawItem) (vat_rate : ℚ) :
    ℚ × ℚ × ℚ :=
  ((line_items.map (fun it =>
      (calculate_line_item_amounts ((parseFloat it.quantity).getD 0)
        ((parseFloat it.unitPrice).getD 0) vat_rate).1)).sum,
   (line_items.map (fun it =>
      (calculate_line_item_amounts ((parseFloat it.quantity).getD 0)
        ((parseFloat it.unitPrice).getD 0) vat_rate).2.1)).sum,
   (line_items.map (fun it =>
      (calculate_line_item_amounts ((parseFloat it.quantity).getD 0)
        ((parseFloat it.unitPrice).getD 0) vat_rate).2.2)).sum)

/-! ## Data model: stored records

The SQLite rows of `Invoices`, `LineItems`, `Estimates`,
`EstimateLineItems` and `Counters`.  Store-assigned surrogate keys of line
items (`id`, `invoiceId`/`estimateId`) are managed by the foreign-key
plumbing and never read by the core logic, so a line-item row is its six
content columns.  Nullable `TEXT` date columns are `Option Date`;
empty/`NULL` (falsy in the Python checks) is `none`. -/

/-- A stored line-item row (columns other than the surrogate keys). -/
structure LineItem where
  description : String
  quantity : ℚ
  unitPrice : ℚ
  amountExclVAT : ℚ
  vatAmount : ℚ
  amountInclVAT : ℚ
  deriving DecidableEq

/-- A stored `Invoices` row together with its line items. -/
structure Invoice where
  id : Nat
  invoiceNumber : String
  invoiceDate : Date
  dueDate : Option Date
  clientName : String
  clientEmail : String
  sellerName : String
  sellerAddress : String
  sellerOrgNumber : String
  sellerVatRegistered : Bool
  deliveryDetails : String
  vatRate : ℚ
  totalAmount : ℚ
  totalAmountExclVAT : ℚ
  totalVAT : ℚ
  isRecurring : Bool
  recurrenceFrequency : Option String
  nextInvoiceDate : Option Date
  endDate : Option Date
  isCancelled : Bool
  lineItems : List LineItem
  deriving DecidableEq

/-- A stored `Estimates` row together with its line items. -/
structure Estimate where
  id : Nat
  estimateNumber : String
  estimateDate : Date
  clientName : String
  clientEmail : String
  sellerName : String
  sellerAddress : String
  sellerOrgNumber : String
  sellerVatRegistered : Bool
  deliveryDetails : String
  vatRate : ℚ
  totalAmount : ℚ
  totalAmountExclVAT : ℚ
  totalVAT : ℚ
  status : String
  lineItems : List LineItem
  deriving DecidableEq

/-- The persistent store: the four record collections plus `Counters`. -/
structure DB where
  invoices : List Invoice
  estimates : List Estimate
  counters : List (String × Nat)
  deriving DecidableEq

/-- `initialize_database()`: fresh tables, counters seeded at 1000/2000. -/
def initialize_database : DB :=
  ⟨[], [], [("invoiceNumber", 1000), ("estimateNumber", 2000)]⟩

/-! ## Sequence generator (`get_next_number`) -/

/-- The `UPDATE Counters SET currentNumber = currentNumber + 1 WHERE name = ?`
statement (increments every row whose name matches; a no-op if none does). -/
def bumpCounter (cs : List (String × Nat)) (name : String) : List (String × Nat) :=
  cs.map (fun c => if c.1 = name then (c.1, c.2 + 1) else c)

/-- The `SELECT currentNumber FROM Counters WHERE name = ?` lookup. -/
def lookupCounter (cs : List (String × Nat)) (name : String) : Option Nat :=
  (cs.find? (fun c => c.1 == name)).map (·.2)

/-- `get_next_number(type)`: increment, then read back.  `none` in the first
component models the `TypeError` Python raises when `fetchone()` returns no
row (the counter name is unknown). -/
def get_next_number (cs : List (String × Nat)) (name : String) :
    Option Nat × List (String × Nat) :=
  let cs' := bumpCounter cs name
  (lookupCounter cs' name, cs')

/-- Call `get_next_number` `n` times in sequence, collecting the returned
numbers (an unknown counter name aborts the run, as the raise would). -/
def iterNextNumbers : Nat → List (String × Nat) → String → List Nat × List (String × Nat)
  | 0, cs, _ => ([], cs)
  | n + 1, cs, name =>
    match get_next_number cs name with
    | (some v, cs') =>
      let r := iterNextNumbers n cs' name
      (v :: r.1, r.2)
    | (none, cs') => ([], cs')

/-! ## Invoice store operations -/

/-- The next `AUTOINCREMENT` primary key for the `Invoices` table. -/
def maxInvoiceId (invs : List Invoice) : Nat :=
  invs.foldl (fun a i => max a i.id) 0

/-- `add_invoice(invoice_data)`: INSERT the header (with a fresh id and
`isCancelled` hard-coded to 0) and its line items. -/
def add_invoice (invs : List Invoice) (data : Invoice) : List Invoice :=
  invs ++ [{ data with id := maxInvoiceId invs + 1, isCancelled := false }]

/-- `update_invoice(invoice_id, updated_data)`: overwrite every column
except `id` and `invoiceNumber` (which the UPDATE statement does not
mention), and replace the whole line-item set. -/
def update_invoice (invs : List Invoice) (invoice_id : Nat) (u : Invoice) :
    List Invoice :=
  invs.map (fun inv =>
    if inv.id = invoice_id then
      { u with id := inv.id, invoiceNumber := inv.invoiceNumber }
    else inv)

/-- `cancel_invoice(invoice_id)`: `UPDATE Invoices SET isCancelled = 1`. -/
def cancel_invoice (invs : List Invoice) (invoice_id : Nat) : List Invoice :=
  invs.map (fun inv =>
    if inv.id = invoice_id then { inv with isCancelled := true } else inv)

/-- `get_invoices()`: read all rows ordered by `invoiceNumber` descending,
then drop the cancelled ones. -/
def get_invoices (invs : List Invoice) : List Invoice :=
  (List.insertionSort (fun a b => b.invoiceNumber ≤ a.invoiceNumber) invs).filter
    (fun inv => !inv.isCancelled)

/-! ## Estimate store operations -/

/-- `update_estimate(estimate_id, updated_data)`: overwrite every column
except `id` and `estimateNumber`, and replace the line items. -/
def update_estimate (ests : List Estimate) (estimate_id : Nat) (u : Estimate) :
    List Estimate :=
  ests.map (fun est =>
    if est.id = estimate_id then
      { u with id := est.id, estimateNumber := est.estimateNumber }
    else est)

/-! ## Lifecycle: estimate → invoice conversion

`convert_estimate_to_invoice(estimate, ...)` builds a new invoice from the
estimate's fields (fresh number, `invoiceDate = now`, `dueDate = now + 14
days`, non-recurring, not cancelled), inserts it, then rewrites the
estimate with `status = 'accepted'`.  `datetime.now()` is the explicit
`today` parameter.  The *UI dispatch* in `estimate_detail_view` offers the
conversion action only while `estimate['status'] != 'accepted'`; that
guard is `convert_action` below. -/

def convert_estimate_to_invoice (db : DB) (est : Estimate) (today : Date) : DB :=
  match get_next_number db.counters "invoiceNumber" with
  | (none, cs') => { db with counters := cs' }
  | (some n, cs') =>
    let newInv : Invoice := {
      id := 0
      invoiceNumber := toString n
      invoiceDate := today
      dueDate := some (addDays today 14)
      clientName := est.clientName
      clientEmail := est.clientEmail
      sellerName := est.sellerName
      sellerAddress := est.sellerAddress
      sellerOrgNumber := est.sellerOrgNumber
      sellerVatRegistered := est.sellerVatRegistered
      deliveryDetails := est.deliveryDetails
      vatRate := est.vatRate
      totalAmount := est.totalAmount
      totalAmountExclVAT := est.totalAmountExclVAT
      totalVAT := est.totalVAT
      isRecurring := false
      recurrenceFrequency := none
      nextInvoiceDate := none
      endDate := none
      isCancelled := false
      lineItems := est.lineItems }
    { db with
      counters := cs'
      invoices := add_invoice db.invoices newInv
      estimates := update_estimate db.estimates est.id { est with status := "accepted" } }

/-- The conversion action as reachable from `estimate_detail_view`: the
convert button is rendered only while the status is not `accepted`. -/
def convert_action (db : DB) (est : Estimate) (today : Date) : DB :=
  if est.status ≠ "accepted" then convert_estimate_to_invoice db est today else db

/-! ## Lifecycle: recurring-invoice generation (`generate_next_invoice`) -/

/-- Outcome reported to the UI by `generate_next_invoice`. -/
inductive GenResult where
  | success
  | failure (msg : String)
  deriving DecidableEq

/-- `generate_next_invoice(original_invoice, ...)`: advance the next-invoice
date by the frequency offset; refuse if the date is unset or the end date
precedes the candidate; otherwise draw a fresh number, insert a copy of the
original dated at the candidate (due 14 days later, not cancelled), and
advance the original's `nextInvoiceDate` in place. -/
def generate_next_invoice (db : DB) (orig : Invoice) : GenResult × DB :=
  match orig.nextInvoiceDate with
  | none =>
    (.failure "Next invoice date is not set for recurring invoice.", db)
  | some nd =>
    let next := candidateNext nd orig.recurrenceFrequency
    if (match orig.endDate with
        | some ed => decide (dateLt ed next)
        | none => false)
    then (.failure "Cannot generate next invoice: End date has passed.", db)
    else
      match get_next_number db.counters "invoiceNumber" with
      | (none, cs') =>
        -- the `except` path: `get_next_number` raised before any write
        (.failure "Failed to generate next invoice", { db with counters := cs' })
      | (some n, cs') =>
        let newInv : Invoice := { orig with
          invoiceNumber := toString n
          invoiceDate := next
          dueDate := some (addDays next 14)
          isCancelled := false }
        let invs := add_invoice db.invoices newInv
        let invs := update_invoice invs orig.id { orig with nextInvoiceDate := some next }
        (.success, { db with counters := cs', invoices := invs })

/-! ### Calendar facts -/

theorem daysInMonth_le_31 (leap : Bool) (m : Nat) :
    daysInMonth leap m ≤ 31 := by
  unfold daysInMonth; split_ifs <;> omega

theorem daysInMonth_pos (leap : Bool) (m : Nat) :
    1 ≤ daysInMonth leap m := by
  unfold daysInMonth; split_ifs <;> omega

theorem daysUpTo_succ (y : Nat) :
    daysUpTo (y + 1) = daysUpTo y + daysInYear (isLeap (y + 1)) := rfl

theorem daysInYear_pos (leap : Bool) : 365 ≤ daysInYear leap := by
  unfold daysInYear; split_ifs <;> omega

theorem daysUpTo_mono {a b : Nat} (h : a ≤ b) : daysUpTo a ≤ daysUpTo b := by
  induction b with
  | zero => simp [Nat.le_zero.mp h]
  | succ b ih =>
    rcases Nat.lt_or_ge a (b + 1) with h' | h'
    · calc daysUpTo a ≤ daysUpTo b := ih (by omega)
        _ ≤ daysUpTo (b + 1) := by rw [daysUpTo_succ]; omega
    · have hab : a = b + 1 := by omega
      rw [hab]

theorem daysUpTo_sub_one_add (y : Nat) (hy : 1 ≤ y) :
    daysUpTo (y - 1) + daysInYear (isLeap y) = daysUpTo y := by
  cases y with
  | zero => omega
  | succ z => simp [daysUpTo_succ]

set_option maxRecDepth 4000 in
/-- `monthDay` inverts `daysBeforeMonth` on 0-based day-of-year offsets. -/
theorem monthDay_spec : ∀ leap : Bool, ∀ r < 366, r < daysInYear leap →
    1 ≤ (monthDay leap r).1 ∧ (monthDay leap r).1 ≤ 12 ∧
    1 ≤ (monthDay leap r).2 ∧
    (monthDay leap r).2 ≤ daysInMonth leap (monthDay leap r).1 ∧
    daysBeforeMonth leap (monthDay leap r).1 + (monthDay leap r).2 = r + 1 := by
  decide

/-- The month table is consistent with the year length. -/
theorem daysBeforeMonth_add_le : ∀ leap : Bool, ∀ m < 13, 1 ≤ m →
    daysBeforeMonth leap m + daysInMonth leap m ≤ daysInYear leap := by
  decide

/-- The month table is strictly increasing across months. -/
theorem daysBeforeMonth_step : ∀ leap : Bool, ∀ m₁ < 13, ∀ m₂ < 13, 1 ≤ m₁ → m₁ < m₂ →
    daysBeforeMonth leap m₁ + daysInMonth leap m₁ ≤ daysBeforeMonth leap m₂ := by
  decide

theorem findYearAux_succ (fuel y n : Nat) :
    findYearAux (fuel + 1) y n =
      if n < daysInYear (isLeap y) then (y, n)
      else findYearAux fuel (y + 1) (n - daysInYear (isLeap y)) := rfl

theorem findYearAux_spec : ∀ fuel y n, n < fuel → 1 ≤ y →
    1 ≤ (findYearAux fuel y n).1 ∧
    daysUpTo ((findYearAux fuel y n).1 - 1) + (findYearAux fuel y n).2
      = daysUpTo (y - 1) + n ∧
    (findYearAux fuel y n).2 < daysInYear (isLeap (findYearAux fuel y n).1) := by
  intro fuel
  induction fuel with
  | zero => intro y n h _; omega
  | succ fuel ih =>
    intro y n hn hy
    rw [findYearAux_succ]
    by_cases h : n < daysInYear (isLeap y)
    · rw [if_pos h]
      exact ⟨hy, rfl, h⟩
    · rw [if_neg h]
      have hdy := daysInYear_pos (isLeap y)
      have hrec := ih (y + 1) (n - daysInYear (isLeap y)) (by omega) (by omega)
      refine ⟨hrec.1, ?_, hrec.2.2⟩
      have hstep := daysUpTo_sub_one_add y hy
      have h2 := hrec.2.1
      simp only [Nat.add_sub_cancel] at h2
      omega

theorem daysInYear_le_366 (leap : Bool) : daysInYear leap ≤ 366 := by
  unfold daysInYear; split_ifs <;> omega

theorem fromOrdinal_valid (n : Nat) (h : 1 ≤ n) : isValidDate (fromOrdinal n) := by
  unfold fromOrdinal
  have hfy := findYearAux_spec n 1 (n - 1) (by omega) (by omega)
  set p := findYearAux n 1 (n - 1) with hp
  have hr : p.2 < daysInYear (isLeap p.1) := hfy.2.2
  have hr366 : p.2 < 366 := by
    have := daysInYear_le_366 (isLeap p.1)
    omega
  have hmd := monthDay_spec (isLeap p.1) p.2 hr366 hr
  exact ⟨hfy.1, hmd.1, hmd.2.1, hmd.2.2.1, hmd.2.2.2.1⟩

theorem toOrdinal_fromOrdinal (n : Nat) (h : 1 ≤ n) :
    toOrdinal (fromOrdinal n) = n := by
  have hfy := findYearAux_spec n 1 (n - 1) (by omega) (by omega)
  set p := findYearAux n 1 (n - 1) with hp
  have hr : p.2 < daysInYear (isLeap p.1) := hfy.2.2
  have hr366 : p.2 < 366 := by
    have := daysInYear_le_366 (isLeap p.1)
    omega
  have hmd := monthDay_spec (isLeap p.1) p.2 hr366 hr
  have hsum := hfy.2.1
  have h0 : daysUpTo (1 - 1) = 0 := rfl
  have hinv := hmd.2.2.2.2
  show daysUpTo (p.1 - 1)
      + daysBeforeMonth (isLeap p.1) (monthDay (isLeap p.1) p.2).1
      + (monthDay (isLeap p.1) p.2).2 = n
  omega

theorem toOrdinal_ge_one {d : Date} (h : isValidDate d) : 1 ≤ toOrdinal d := by
  unfold toOrdinal
  have := h.2.2.2.1
  omega

/-- Strict lexicographic order on valid dates implies strict ordinal order. -/
theorem toOrdinal_lt_of_dateLt {a b : Date}
    (ha : isValidDate a) (hb : isValidDate b) (h : dateLt a b) :
    toOrdinal a < toOrdinal b := by
  obtain ⟨hay, ham1, ham2, had1, had2⟩ := ha
  obtain ⟨hby, hbm1, hbm2, hbd1, hbd2⟩ := hb
  unfold toOrdinal
  rcases h with hy | ⟨hy, hm | ⟨hm, hd⟩⟩
  · -- strictly later year
    have h1 : daysBeforeMonth (isLeap a.year) a.month + a.day
        ≤ daysInYear (isLeap a.year) := by
      have := daysBeforeMonth_add_le (isLeap a.year) a.month (by omega) ham1
      omega
    have h2 := daysUpTo_sub_one_add a.year hay
    have h3 : daysUpTo a.year ≤ daysUpTo (b.year - 1) :=
      daysUpTo_mono (by omega)
    omega
  · -- same year, strictly later month
    rw [hy]
    have h1 := daysBeforeMonth_step (isLeap b.year) a.month (by omega) b.month
      (by omega) ham1 hm
    rw [hy] at had2
    omega
  · -- same year and month, strictly later day
    rw [hy, hm]
    omega

/-- One advance step strictly increases the ordinal when the offset is ≥ 31,
and preserves validity. -/
theorem advanceDate_lt {d : Date} {off : Nat}
    (hd : isValidDate d) (hoff : 31 ≤ off) :
    toOrdinal d < toOrdinal (advanceDate d off) ∧
      isValidDate (advanceDate d off) := by
  have h1 : 1 ≤ toOrdinal d := toOrdinal_ge_one hd
  have hsv : isValidDate (addDays d off) := fromOrdinal_valid _ (by omega)
  have hso : toOrdinal (addDays d off) = toOrdinal d + off :=
    toOrdinal_fromOrdinal _ (by omega)
  obtain ⟨hsy, hsm1, hsm2, hsd1, hsd2⟩ := hsv
  have hts : toOrdinal (addDays d off)
      = daysUpTo ((addDays d off).year - 1)
        + daysBeforeMonth (isLeap (addDays d off).year) (addDays d off).month
        + (addDays d off).day := rfl
  have hres : toOrdinal (advanceDate d off)
      = daysUpTo ((addDays d off).year - 1)
        + daysBeforeMonth (isLeap (addDays d off).year) (addDays d off).month
        + min d.day (addDays d off).day := rfl
  have hsday31 : (addDays d off).day ≤ 31 :=
    le_trans hsd2 (daysInMonth_le_31 _ _)
  have hd1 : 1 ≤ d.day := hd.2.2.2.1
  have hminge : 1 ≤ min d.day (addDays d off).day := le_min hd1 hsd1
  constructor
  · rw [hres]
    omega
  · exact ⟨hsy, hsm1, hsm2, hminge, le_trans (min_le_right _ _) hsd2⟩

/-! ## Sample records (concrete values used to instantiate theorems) -/

/-- A concrete stored invoice. -/
def sampleInvoice : Invoice := {
  id := 1
  invoiceNumber := "1001"
  invoiceDate := ⟨2024, 1, 1⟩
  dueDate := some ⟨2024, 1, 15⟩
  clientName := "Acme"
  clientEmail := "acme@example.com"
  sellerName := "Seller"
  sellerAddress := "Addr 1, City"
  sellerOrgNumber := "123456789"
  sellerVatRegistered := true
  deliveryDetails := ""
  vatRate := 25
  totalAmount := 1250
  totalAmountExclVAT := 1000
  totalVAT := 250
  isRecurring := false
  recurrenceFrequency := none
  nextInvoiceDate := none
  endDate := none
  isCancelled := false
  lineItems := [⟨"Consulting", 2, 500, 1000, 250, 1250⟩] }

/-- A concrete recurring invoice (monthly, no end date). -/
def sampleRecurring : Invoice := { sampleInvoice with
  id := 7
  invoiceNumber := "1007"
  isRecurring := true
  recurrenceFrequency := some "monthly"
  nextInvoiceDate := some ⟨2024, 1, 31⟩ }

/-- A concrete stored estimate. -/
def sampleEstimate : Estimate := {
  id := 1
  estimateNumber := "2001"
  estimateDate := ⟨2024, 1, 1⟩
  clientName := "Acme"
  clientEmail := "acme@example.com"
  sellerName := "Seller"
  sellerAddress := "Addr 1, City"
  sellerOrgNumber := "123456789"
  sellerVatRegistered := true
  deliveryDetails := "Next week"
  vatRate := 25
  totalAmount := 1250
  totalAmountExclVAT := 1000
  totalVAT := 250
  status := "draft"
  lineItems := [⟨"Consulting", 2, 500, 1000, 250, 1250⟩] }

/-! ### Sequence generator facts -/

/-- One `get_next_number` call on a store whose counter reads `c` returns
`c + 1` and stores `c + 1`. -/
theorem get_next_number_lookup (cs : List (String × Nat)) (name : String) (c : Nat)
    (h : lookupCounter cs name = some c) :
    (get_next_number cs name).1 = some (c + 1) ∧
      lookupCounter (get_next_number cs name).2 name = some (c + 1) := by
  induction cs with
  | nil => simp [lookupCounter] at h
  | cons x xs ih =>
    by_cases hx : x.1 = name
    · simp [lookupCounter, List.find?, hx] at h
      simp [get_next_number, bumpCounter, lookupCounter, List.find?, hx, h]
    · have hx' : (x.1 == name) = false := by simpa using hx
      simp [lookupCounter, List.find?, hx'] at h
      have := ih (by simpa [lookupCounter] using h)
      simpa [get_next_number, bumpCounter, lookupCounter, List.find?, hx, hx'] using this

theorem iterNextNumbers_invoice (N : Nat) : ∀ a b : Nat,
    iterNextNumbers N [("invoiceNumber", a), ("estimateNumber", b)] "invoiceNumber"
      = (List.range' (a + 1) N, [("invoiceNumber", a + N), ("estimateNumber", b)]) := by
  induction N with
  | zero => intro a b; simp [iterNextNumbers]
  | succ n ih =>
    intro a b
    have hstep : get_next_number [("invoiceNumber", a), ("estimateNumber", b)] "invoiceNumber"
        = (some (a + 1), [("invoiceNumber", a + 1), ("estimateNumber", b)]) := by
      simp [get_next_number, bumpCounter, lookupCounter, List.find?]
    have harith : a + (n + 1) = a + 1 + n := by omega
    simp only [iterNextNumbers, hstep, List.range'_succ, harith]
    rw [ih (a + 1) b]

theorem iterNextNumbers_estimate (N : Nat) : ∀ a b : Nat,
    iterNextNumbers N [("invoiceNumber", a), ("estimateNumber", b)] "estimateNumber"
      = (List.range' (b + 1) N, [("invoiceNumber", a), ("estimateNumber", b + N)]) := by
  induction N with
  | zero => intro a b; simp [iterNextNumbers]
  | succ n ih =>
    intro a b
    have hstep : get_next_number [("invoiceNumber", a), ("estimateNumber", b)] "estimateNumber"
        = (some (b + 1), [("invoiceNumber", a), ("estimateNumber", b + 1)]) := by
      simp [get_next_number, bumpCounter, lookupCounter, List.find?]
    have harith : b + (n + 1) = b + 1 + n := by omega
    simp only [iterNextNumbers, hstep, List.range'_succ, harith]
    rw [ih a (b + 1)]

/-! ### Money calculator facts -/

theorem overall_totals_foldl_filter (v : ℚ) (l : List RawItem) :
    ∀ acc : ℚ × ℚ × ℚ,
    l.foldl
      (fun acc item =>
        match parseFloat item.quantity, parseFloat item.unitPrice with
        | some qty, some price =>
          let r := calculate_line_item_amounts qty price v
          (acc.1 + r.1, acc.2.1 + r.2.1, acc.2.2 + r.2.2)
        | _, _ => acc) acc
    = (l.filter (fun it =>
        (parseFloat it.quantity).isSome && (parseFloat it.unitPrice).isSome)).foldl
      (fun acc item =>
        match parseFloat item.quantity, parseFloat item.unitPrice with
        | some qty, some price =>
          let r := calculate_line_item_amounts qty price v
          (acc.1 + r.1, acc.2.1 + r.2.1, acc.2.2 + r.2.2)
        | _, _ => acc) acc := by
  induction l with
  | nil => intro acc; rfl
  | cons h t ih =>
    intro acc
    rcases hq : parseFloat h.quantity with _ | q
    · simp [List.filter_cons, hq, ih]
    · rcases hp : parseFloat h.unitPrice with _ | p
      · simp [List.filter_cons, hq, hp, ih]
      · simp [List.filter_cons, hq, hp, ih]

theorem overall_totals_eq_spec_aux (v : ℚ) (l : List RawItem)
    (hnum : ∀ it ∈ l, (parseFloat it.quantity).isSome ∧ (parseFloat it.unitPrice).isSome) :
    ∀ acc : ℚ × ℚ × ℚ,
    l.foldl
      (fun acc item =>
        match parseFloat item.quantity, parseFloat item.unitPrice with
        | some qty, some price =>
          let r := calculate_line_item_amounts qty price v
          (acc.1 + r.1, acc.2.1 + r.2.1, acc.2.2 + r.2.2)
        | _, _ => acc) acc
    = (acc.1 + (documentTotalsSpec l v).1,
       acc.2.1 + (documentTotalsSpec l v).2.1,
       acc.2.2 + (documentTotalsSpec l v).2.2) := by
  induction l with
  | nil => intro acc; simp [documentTotalsSpec]
  | cons h t ih =>
    intro acc
    obtain ⟨hq0, hp0⟩ := hnum h (by simp)
    rcases hq : parseFloat h.quantity with _ | q
    · rw [hq] at hq0; simp at hq0
    · rcases hp : parseFloat h.unitPrice with _ | p
      · rw [hp] at hp0; simp at hp0
      · have ih' := ih (fun it hit => hnum it (by simp [hit]))
        simp only [List.foldl_cons, hq, hp]
        rw [ih']
        simp [documentTotalsSpec, hq, hp]
        refine ⟨by ring, by ring, by ring⟩

/-! ### Claim theorems -/

/-- C2: starting from the freshly seeded store, N sequential calls of
`get_next_number` on `"invoiceNumber"` return exactly 1001, 1002, …,
1000+N (and 2001, …, 2000+N for `"estimateNumber"`), leaving the counter
at seed+N; and each single call on a store whose counter reads `c`
increments it to `c + 1` and returns `c + 1`. -/
theorem C2_sequence_generator (N : Nat) :
    (iterNextNumbers N initialize_database.counters "invoiceNumber"
      = (List.range' 1001 N, [("invoiceNumber", 1000 + N), ("estimateNumber", 2000)]))
    ∧ (iterNextNumbers N initialize_database.counters "estimateNumber"
      = (List.range' 2001 N, [("invoiceNumber", 1000), ("estimateNumber", 2000 + N)]))
    ∧ (∀ (cs : List (String × Nat)) (name : String) (c : Nat),
        lookupCounter cs name = some c →
        (get_next_number cs name).1 = some (c + 1) ∧
          lookupCounter (get_next_number cs name).2 name = some (c + 1)) := by
  refine ⟨?_, ?_, fun cs name c h => get_next_number_lookup cs name c h⟩
  · simpa using iterNextNumbers_invoice N 1000 2000
  · simpa using iterNextNumbers_estimate N 1000 2000

/-- Witness for C2 at N = 3: the three returned invoice numbers are
1001, 1002, 1003, and a single call on a counter reading 41 returns 42. -/
theorem C2_sequence_generator_witness :
    (iterNextNumbers 3 initialize_database.counters "invoiceNumber"
      = ([1001, 1002, 1003], [("invoiceNumber", 1003), ("estimateNumber", 2000)]))
    ∧ (get_next_number [("x", 41)] "x").1 = some 42 := by
  refine ⟨?_, ?_⟩
  · have h := (C2_sequence_generator 3).1
    simpa using h
  · exact ((C2_sequence_generator 3).2.2 [("x", 41)] "x" 41 (by simp [lookupCounter, List.find?])).1

/-- C4: on a non-empty list of line items whose quantities and unit prices
are all numeric, and a VAT rate in [0, 100], `calculate_overall_totals` is
exactly the element-wise sum of `calculate_line_item_amounts` over the
items, where the per-line amounts are excl = q·p, vat = excl·v/100,
incl = excl + vat. -/
theorem C4_totals_elementwise_sum (line_items : List RawItem) (v : ℚ)
    (hne : line_items ≠ [])
    (hnum : ∀ it ∈ line_items,
      (parseFloat it.quantity).isSome ∧ (parseFloat it.unitPrice).isSome)
    (hv : 0 ≤ v ∧ v ≤ 100) :
    calculate_overall_totals line_items v = documentTotalsSpec line_items v
    ∧ ∀ q p : ℚ, calculate_line_item_amounts q p v
        = (q * p, q * p * (v / 100), q * p + q * p * (v / 100)) := by
  constructor
  · unfold calculate_overall_totals
    rw [overall_totals_eq_spec_aux v line_items hnum (0, 0, 0)]
    simp
  · intro q p; rfl

/-- Witness for C4: two items at VAT 25% total (1100, 275, 1375). -/
theorem C4_totals_elementwise_sum_witness :
    calculate_overall_totals
        [⟨"Consulting", Val.num 2, Val.num 500⟩, ⟨"Fee", Val.num 1, Val.num 100⟩] 25
      = documentTotalsSpec
        [⟨"Consulting", Val.num 2, Val.num 500⟩, ⟨"Fee", Val.num 1, Val.num 100⟩] 25
    ∧ calculate_overall_totals
        [⟨"Consulting", Val.num 2, Val.num 500⟩, ⟨"Fee", Val.num 1, Val.num 100⟩] 25
      = (1100, 275, 1375) := by
  constructor
  · exact (C4_totals_elementwise_sum _ 25 (by simp)
      (by intro it hit; simp at hit; rcases hit with rfl | rfl <;> simp [parseFloat])
      (by norm_num)).1
  · norm_num [calculate_overall_totals, parseFloat, calculate_line_item_amounts]

/-- C5: `calculate_overall_totals` skips every line item whose quantity or
unit price does not parse as a number and returns the totals of the
remaining items (it is total — never an error). -/
theorem C5_totals_skip_unparsable (line_items : List RawItem) (vat_rate : ℚ) :
    calculate_overall_totals line_items vat_rate
      = calculate_overall_totals
          (line_items.filter (fun it =>
            (parseFloat it.quantity).isSome && (parseFloat it.unitPrice).isSome))
          vat_rate := by
  unfold calculate_overall_totals
  exact overall_totals_foldl_filter vat_rate line_items (0, 0, 0)

theorem dateLt_trichot (a b : Date) : a = b ∨ dateLt a b ∨ dateLt b a := by
  rcases a with ⟨ay, am, ad⟩
  rcases b with ⟨by1, bm, bd⟩
  simp only [dateLt, Date.mk.injEq]
  omega

/-- Converting a valid date to its ordinal and back is the identity. -/
theorem fromOrdinal_toOrdinal {d : Date} (hd : isValidDate d) :
    fromOrdinal (toOrdinal d) = d := by
  have h1 := toOrdinal_ge_one hd
  have hv := fromOrdinal_valid (toOrdinal d) h1
  have hr := toOrdinal_fromOrdinal (toOrdinal d) h1
  rcases dateLt_trichot (fromOrdinal (toOrdinal d)) d with h | h | h
  · exact h
  · have := toOrdinal_lt_of_dateLt hv hd h
    omega
  · have := toOrdinal_lt_of_dateLt hd hv h
    omega

/-- Evaluate `addDays` at concrete dates without unfolding the year walk:
if the target is valid and its ordinal matches, it is the result. -/
theorem addDays_eq_of_toOrdinal {d e : Date} {k : Nat} (he : isValidDate e)
    (h : toOrdinal d + k = toOrdinal e) : addDays d k = e := by
  unfold addDays
  rw [h]
  exact fromOrdinal_toOrdinal he

/-- `candidateNext` on one of the three recognised frequencies never moves
the date backwards (in ordinal terms) and keeps it valid. -/
theorem candidateNext_mono {d : Date} {freq : Option String}
    (hd : isValidDate d)
    (hf : freq = some "monthly" ∨ freq = some "quarterly" ∨ freq = some "annually") :
    toOrdinal d ≤ toOrdinal (candidateNext d freq) ∧
      isValidDate (candidateNext d freq) := by
  rcases hf with hf | hf | hf <;> subst hf
  · have h := @advanceDate_lt d 31 hd (by omega)
    simpa [candidateNext] using ⟨Nat.le_of_lt h.1, h.2⟩
  · have h := @advanceDate_lt d 92 hd (by omega)
    simpa [candidateNext] using ⟨Nat.le_of_lt h.1, h.2⟩
  · have h := @advanceDate_lt d 366 hd (by omega)
    simpa [candidateNext] using ⟨Nat.le_of_lt h.1, h.2⟩

/-- The ordinal of 2024-01-31 plus 31 days is the ordinal of 2024-03-02
(2024 is a leap year). -/
theorem jan31_plus31_ord :
    toOrdinal ⟨2024, 1, 31⟩ + 31 = toOrdinal ⟨2024, 3, 2⟩ := by
  unfold toOrdinal
  have hl : isLeap 2024 = true := by decide
  rw [hl]
  norm_num [daysBeforeMonth]

/-! ### Claim theorems about the scheduler and store operations -/

/-- C1 counterexample: at 2024-01-31 with frequency monthly the code's
advance yields 2024-03-02, while clamping the day to
`min(original.day, last day of the result month)` as the claim states
would yield 2024-03-31; the two disagree (and 2024-03-02 is the last day
of no window). -/
theorem C1_counterexample :
    candidateNext ⟨2024, 1, 31⟩ (some "monthly") = ⟨2024, 3, 2⟩
    ∧ advanceDateSpec ⟨2024, 1, 31⟩ 31 = ⟨2024, 3, 31⟩
    ∧ candidateNext ⟨2024, 1, 31⟩ (some "monthly")
        ≠ advanceDateSpec ⟨2024, 1, 31⟩ 31 := by
  have hadd : addDays ⟨2024, 1, 31⟩ 31 = ⟨2024, 3, 2⟩ :=
    addDays_eq_of_toOrdinal (by decide) jan31_plus31_ord
  have h1 : candidateNext ⟨2024, 1, 31⟩ (some "monthly") = ⟨2024, 3, 2⟩ := by
    simp only [candidateNext, reduceIte]
    unfold advanceDate
    rw [hadd]
    decide
  have h2 : advanceDateSpec ⟨2024, 1, 31⟩ 31 = ⟨2024, 3, 31⟩ := by
    unfold advanceDateSpec
    rw [hadd]
    decide
  exact ⟨h1, h2, by rw [h1, h2]; decide⟩

/-- C1 (amended): `advance` adds the fixed offset (31 days monthly, 92
quarterly, 366 annually) to reach a shifted date `s` and then replaces the
day-of-month with `min(original.day, s.day)` — clamping against the
shifted date's own day, not the result month's last day.  The result is
always a valid calendar date; in particular advance(2024-01-31, monthly)
is the valid date 2024-03-02, not an invalid one. -/
theorem C1_advance_fixed_offset_clamped (d : Date) (hd : isValidDate d) :
    (candidateNext d (some "monthly") = advanceDate d 31
      ∧ candidateNext d (some "quarterly") = advanceDate d 92
      ∧ candidateNext d (some "annually") = advanceDate d 366)
    ∧ (∀ off, 31 ≤ off →
        advanceDate d off
          = ⟨(addDays d off).year, (addDays d off).month,
              min d.day (addDays d off).day⟩
        ∧ isValidDate (advanceDate d off))
    ∧ candidateNext ⟨2024, 1, 31⟩ (some "monthly") = ⟨2024, 3, 2⟩
    ∧ isValidDate (⟨2024, 3, 2⟩ : Date) := by
  refine ⟨⟨by simp [candidateNext], by simp [candidateNext], by simp [candidateNext]⟩,
    fun off hoff => ⟨rfl, (advanceDate_lt hd hoff).2⟩, C1_counterexample.1, by decide⟩

/-- Witness for C1 (amended) at 2024-01-31. -/
theorem C1_advance_fixed_offset_clamped_witness :
    isValidDate (⟨2024, 1, 31⟩ : Date)
    ∧ (candidateNext ⟨2024, 1, 31⟩ (some "monthly") = ⟨2024, 3, 2⟩
        ∧ isValidDate (⟨2024, 3, 2⟩ : Date))
    ∧ isValidDate (advanceDate ⟨2024, 1, 31⟩ 31) :=
  ⟨by decide,
   ⟨(C1_advance_fixed_offset_clamped ⟨2024, 1, 31⟩ (by decide)).2.2.1,
    (C1_advance_fixed_offset_clamped ⟨2024, 1, 31⟩ (by decide)).2.2.2⟩,
   ((C1_advance_fixed_offset_clamped ⟨2024, 1, 31⟩ (by decide)).2.1 31 (by omega)).2⟩

/-- C9: iterating the scheduler's advance any number of times, on a valid
date and one of the three recognised frequencies, never yields a date
earlier than the starting date. -/
theorem C9_iterated_advance_monotone (d : Date) (freq : Option String) (k : Nat)
    (hd : isValidDate d)
    (hf : freq = some "monthly" ∨ freq = some "quarterly" ∨ freq = some "annually") :
    ¬ dateLt (Nat.iterate (fun x => candidateNext x freq) k d) d := by
  have key : ∀ j : Nat,
      isValidDate (Nat.iterate (fun x => candidateNext x freq) j d) ∧
      toOrdinal d ≤ toOrdinal (Nat.iterate (fun x => candidateNext x freq) j d) := by
    intro j
    induction j with
    | zero =>
      rw [Function.iterate_zero_apply]
      exact ⟨hd, le_refl _⟩
    | succ j ih =>
      rw [Function.iterate_succ_apply']
      have hstep := candidateNext_mono ih.1 hf
      exact ⟨hstep.2, le_trans ih.2 hstep.1⟩
  intro hlt
  have h2 := toOrdinal_lt_of_dateLt (key k).1 hd hlt
  have h3 := (key k).2
  omega

/-- Witness for C9: two monthly advances from 2024-01-31 do not go below it. -/
theorem C9_iterated_advance_monotone_witness :
    isValidDate (⟨2024, 1, 31⟩ : Date)
    ∧ ¬ dateLt
        (Nat.iterate (fun x => candidateNext x (some "monthly")) 2 ⟨2024, 1, 31⟩)
        ⟨2024, 1, 31⟩ :=
  ⟨by decide,
   C9_iterated_advance_monotone ⟨2024, 1, 31⟩ (some "monthly") 2 (by decide)
     (Or.inl rfl)⟩

/-- C8: `update_invoice` never changes any invoice's `invoiceNumber` (or
id): the id → invoiceNumber association of the store is untouched, for
every update payload — including one carrying its own `invoiceNumber`
field. -/
theorem C8_update_preserves_number (invs : List Invoice) (invoice_id : Nat)
    (u : Invoice) :
    (update_invoice invs invoice_id u).map (fun i => (i.id, i.invoiceNumber))
      = invs.map (fun i => (i.id, i.invoiceNumber)) := by
  unfold update_invoice
  rw [List.map_map]
  apply List.map_congr_left
  intro x hx
  by_cases h : x.id = invoice_id <;> simp [h]

/-- C7: cancelling a stored invoice keeps the record in the store with
`isCancelled = true` (soft delete), is idempotent, and removes the invoice
from the `get_invoices` listing. -/
theorem C7_cancel_invoice_soft (invs : List Invoice) (inv : Invoice)
    (invoice_id : Nat) (hmem : inv ∈ invs) (hid : inv.id = invoice_id) :
    { inv with isCancelled := true } ∈ cancel_invoice invs invoice_id
    ∧ (∀ j ∈ cancel_invoice invs invoice_id, j.id = invoice_id →
        j.isCancelled = true)
    ∧ cancel_invoice (cancel_invoice invs invoice_id) invoice_id
        = cancel_invoice invs invoice_id
    ∧ ∀ j ∈ get_invoices (cancel_invoice invs invoice_id), j.id ≠ invoice_id := by
  refine ⟨?_, ?_, ?_, ?_⟩
  · unfold cancel_invoice
    exact List.mem_map.mpr ⟨inv, hmem, by simp [hid]⟩
  · intro j hj hjid
    rcases List.mem_map.mp hj with ⟨x, hx, hfx⟩
    by_cases hxid : x.id = invoice_id
    · rw [if_pos hxid] at hfx
      rw [← hfx]
    · rw [if_neg hxid] at hfx
      rw [← hfx] at hjid
      exact absurd hjid hxid
  · unfold cancel_invoice
    rw [List.map_map]
    apply List.map_congr_left
    intro x hx
    by_cases h : x.id = invoice_id <;> simp [h]
  · intro j hj
    have hj' : j ∈ (cancel_invoice invs invoice_id).filter (fun i => !i.isCancelled) := by
      unfold get_invoices at hj
      rcases List.mem_filter.mp hj with ⟨hjs, hjc⟩
      exact List.mem_filter.mpr ⟨(List.mem_insertionSort _).mp hjs, hjc⟩
    rcases List.mem_filter.mp hj' with ⟨hjm, hjc⟩
    intro hjid
    rcases List.mem_map.mp hjm with ⟨x, hx, hfx⟩
    by_cases hxid : x.id = invoice_id
    · rw [if_pos hxid] at hfx
      rw [← hfx] at hjc
      simp at hjc
    · rw [if_neg hxid] at hfx
      rw [← hfx] at hjid
      exact absurd hjid hxid

/-- Witness for C7 on a one-invoice store. -/
theorem C7_cancel_invoice_soft_witness :
    { sampleInvoice with isCancelled := true } ∈ cancel_invoice [sampleInvoice] 1
    ∧ cancel_invoice (cancel_invoice [sampleInvoice] 1) 1
        = cancel_invoice [sampleInvoice] 1
    ∧ ∀ j ∈ get_invoices (cancel_invoice [sampleInvoice] 1), j.id ≠ 1 := by
  have h := C7_cancel_invoice_soft [sampleInvoice] sampleInvoice 1
    (by simp) (by simp [sampleInvoice])
  exact ⟨h.1, h.2.2.1, h.2.2.2⟩

/-- `get_next_number` on a store whose counter reads `c`, as a pair. -/
theorem get_next_number_eq (cs : List (String × Nat)) (name : String) (c : Nat)
    (h : lookupCounter cs name = some c) :
    get_next_number cs name = (some (c + 1), bumpCounter cs name) := by
  have h1 : lookupCounter (bumpCounter cs name) name = some (c + 1) :=
    (get_next_number_lookup cs name c h).1
  show (lookupCounter (bumpCounter cs name) name, bumpCounter cs name) = _
  rw [h1]

theorem foldl_max_init_le (l : List Invoice) :
    ∀ a : Nat, a ≤ l.foldl (fun a i => max a i.id) a := by
  induction l with
  | nil => intro a; simp
  | cons h t ih =>
    intro a
    exact le_trans (le_max_left a h.id) (ih (max a h.id))

theorem mem_id_le_foldl_max (l : List Invoice) :
    ∀ (a : Nat) (inv : Invoice), inv ∈ l → inv.id ≤ l.foldl (fun a i => max a i.id) a := by
  induction l with
  | nil => intro a inv h; simp at h
  | cons h t ih =>
    intro a inv hm
    rcases List.mem_cons.mp hm with rfl | hm'
    · exact le_trans (le_max_right a inv.id) (foldl_max_init_le t (max a inv.id))
    · exact ih (max a h.id) inv hm'

/-- A stored invoice's id never exceeds the running maximum. -/
theorem mem_id_le_maxInvoiceId {invs : List Invoice} {inv : Invoice}
    (h : inv ∈ invs) : inv.id ≤ maxInvoiceId invs :=
  mem_id_le_foldl_max invs 0 inv h

/-- C6: when the recurring invoice's `nextInvoiceDate` is unset, or its
`endDate` is set and is strictly earlier than the advanced candidate date,
`generate_next_invoice` reports a failure and leaves the store untouched:
no invoice is inserted, no sequence number is drawn, and the original's
`nextInvoiceDate` is not advanced. -/
theorem C6_generation_guard_rejects (db : DB) (orig : Invoice)
    (h : orig.nextInvoiceDate = none
      ∨ ∃ nd ed, orig.nextInvoiceDate = some nd ∧ orig.endDate = some ed
          ∧ dateLt ed (candidateNext nd orig.recurrenceFrequency)) :
    (∃ msg, (generate_next_invoice db orig).1 = GenResult.failure msg)
    ∧ (generate_next_invoice db orig).2 = db := by
  rcases h with h | ⟨nd, ed, hnd, hed, hlt⟩
  · unfold generate_next_invoice
    rw [h]
    exact ⟨⟨_, rfl⟩, rfl⟩
  · have hdec : decide (dateLt ed (candidateNext nd orig.recurrenceFrequency)) = true :=
      decide_eq_true hlt
    simp only [generate_next_invoice, hnd, hed, hdec, if_true]
    exact ⟨⟨_, rfl⟩, by simp⟩

/-- Witness for C6: a non-recurring-configured invoice with no
`nextInvoiceDate` is rejected and the store is unchanged. -/
theorem C6_generation_guard_rejects_witness :
    sampleInvoice.nextInvoiceDate = none
    ∧ (∃ msg, (generate_next_invoice initialize_database sampleInvoice).1
        = GenResult.failure msg)
    ∧ (generate_next_invoice initialize_database sampleInvoice).2
        = initialize_database :=
  ⟨rfl, C6_generation_guard_rejects initialize_database sampleInvoice (Or.inl rfl)⟩

/-- C3: converting a non-accepted estimate creates exactly one new invoice
copying the estimate's client, seller, delivery, VAT rate, line items and
three totals, with a fresh number from the sequence generator,
`invoiceDate = today`, `dueDate = today + 14 days`, non-recurring and not
cancelled, and sets the source estimate's status to `accepted`; an
already-accepted estimate is not converted (the action is a no-op). -/
theorem C3_convert_estimate (db : DB) (est : Estimate) (today : Date) (c : Nat)
    (hctr : lookupCounter db.counters "invoiceNumber" = some c) :
    (est.status ≠ "accepted" →
      ∃ newInv : Invoice,
        (convert_action db est today).invoices = db.invoices ++ [newInv]
        ∧ newInv.invoiceNumber = toString (c + 1)
        ∧ newInv.invoiceDate = today
        ∧ newInv.dueDate = some (addDays today 14)
        ∧ newInv.clientName = est.clientName
        ∧ newInv.clientEmail = est.clientEmail
        ∧ newInv.sellerName = est.sellerName
        ∧ newInv.sellerAddress = est.sellerAddress
        ∧ newInv.sellerOrgNumber = est.sellerOrgNumber
        ∧ newInv.sellerVatRegistered = est.sellerVatRegistered
        ∧ newInv.deliveryDetails = est.deliveryDetails
        ∧ newInv.vatRate = est.vatRate
        ∧ newInv.lineItems = est.lineItems
        ∧ newInv.totalAmount = est.totalAmount
        ∧ newInv.totalAmountExclVAT = est.totalAmountExclVAT
        ∧ newInv.totalVAT = est.totalVAT
        ∧ newInv.isRecurring = false
        ∧ newInv.isCancelled = false
        ∧ (∀ e ∈ (convert_action db est today).estimates, e.id = est.id →
            e.status = "accepted")
        ∧ (∀ e ∈ (convert_action db est today).estimates, e.id ≠ est.id →
            e ∈ db.estimates))
    ∧ (est.status = "accepted" → convert_action db est today = db) := by
  constructor
  · intro hne
    have h1 := get_next_number_eq db.counters "invoiceNumber" c hctr
    simp only [convert_action, hne, ne_eq, not_false_eq_true, if_true,
      convert_estimate_to_invoice, h1]
    refine ⟨_, rfl, rfl, rfl, rfl, rfl, rfl, rfl, rfl, rfl, rfl, rfl, rfl, rfl,
      rfl, rfl, rfl, rfl, rfl, ?_, ?_⟩
    · intro e he hid
      unfold update_estimate at he
      rcases List.mem_map.mp he with ⟨x, hx, hfx⟩
      by_cases hxid : x.id = est.id
      · simp only [hxid, if_true] at hfx
        rw [← hfx]
      · simp only [hxid, if_false] at hfx
        rw [← hfx] at hid
        exact absurd hid hxid
    · intro e he hid
      unfold update_estimate at he
      rcases List.mem_map.mp he with ⟨x, hx, hfx⟩
      by_cases hxid : x.id = est.id
      · simp only [hxid, if_true] at hfx
        rw [← hfx] at hid
        simp at hid
      · simp only [hxid, if_false] at hfx
        rw [← hfx]
        exact hx
  · intro hacc
    simp [convert_action, hacc]

/-- Witness for C3: converting the draft sample estimate creates one new
invoice numbered 1001 with the estimate's totals; converting an
already-accepted copy changes nothing. -/
theorem C3_convert_estimate_witness :
    (∃ newInv : Invoice,
      (convert_action ⟨[], [sampleEstimate], [("invoiceNumber", 1000), ("estimateNumber", 2000)]⟩
          sampleEstimate ⟨2024, 2, 1⟩).invoices = [newInv]
      ∧ newInv.invoiceNumber = toString 1001
      ∧ newInv.totalAmount = sampleEstimate.totalAmount
      ∧ newInv.isRecurring = false)
    ∧ convert_action
        ⟨[], [{ sampleEstimate with status := "accepted" }],
          [("invoiceNumber", 1000), ("estimateNumber", 2000)]⟩
        { sampleEstimate with status := "accepted" } ⟨2024, 2, 1⟩
      = ⟨[], [{ sampleEstimate with status := "accepted" }],
          [("invoiceNumber", 1000), ("estimateNumber", 2000)]⟩ := by
  constructor
  · obtain ⟨ni, h1, h2, h3, h4, h5, h6, h7, h8, h9, h10, h11, h12, h13, hrest⟩ :=
      (C3_convert_estimate
        ⟨[], [sampleEstimate], [("invoiceNumber", 1000), ("estimateNumber", 2000)]⟩
        sampleEstimate ⟨2024, 2, 1⟩ 1000
        (by simp [lookupCounter, List.find?])).1 (by simp [sampleEstimate])
    refine ⟨ni, by simpa using h1, by simpa using h2, hrest.1, hrest.2.2.2.1⟩
  · exact (C3_convert_estimate
      ⟨[], [{ sampleEstimate with status := "accepted" }],
        [("invoiceNumber", 1000), ("estimateNumber", 2000)]⟩
      { sampleEstimate with status := "accepted" } ⟨2024, 2, 1⟩ 1000
      (by simp [lookupCounter, List.find?])).2 rfl

/-- C10: when generation succeeds, the created invoice is a copy taken
before the original's `nextInvoiceDate` is advanced: it keeps
`isRecurring = true`, the same `recurrenceFrequency` and `endDate`, and
the original's pre-advance `nextInvoiceDate`, so it itself qualifies as a
recurring invoice on the same schedule (its own `invoiceDate` being the
advanced date). -/
theorem C10_generated_copy_pre_advance (db : DB) (orig : Invoice) (nd : Date) (c : Nat)
    (hmem : orig ∈ db.invoices)
    (hrec : orig.isRecurring = true)
    (hnd : orig.nextInvoiceDate = some nd)
    (hend : ∀ ed, orig.endDate = some ed →
      ¬ dateLt ed (candidateNext nd orig.recurrenceFrequency))
    (hctr : lookupCounter db.counters "invoiceNumber" = some c) :
    (generate_next_invoice db orig).1 = GenResult.success
    ∧ ∃ newInv : Invoice,
        ((generate_next_invoice db orig).2.invoices).getLast? = some newInv
        ∧ newInv.isRecurring = true
        ∧ newInv.recurrenceFrequency = orig.recurrenceFrequency
        ∧ newInv.endDate = orig.endDate
        ∧ newInv.nextInvoiceDate = some nd
        ∧ newInv.invoiceDate = candidateNext nd orig.recurrenceFrequency
        ∧ newInv.isCancelled = false := by
  have h1 := get_next_number_eq db.counters "invoiceNumber" c hctr
  have hguard : (match orig.endDate with
      | some ed => decide (dateLt ed (candidateNext nd orig.recurrenceFrequency))
      | none => false) = false := by
    rcases horig : orig.endDate with _ | ed
    · rfl
    · simpa using hend ed horig
  simp only [generate_next_invoice, hnd, hguard, Bool.false_eq_true, if_false, h1]
  refine ⟨by simp, ?_⟩
  set newInv : Invoice := { orig with
    invoiceNumber := toString (c + 1)
    invoiceDate := candidateNext nd orig.recurrenceFrequency
    dueDate := some (addDays (candidateNext nd orig.recurrenceFrequency) 14)
    nextInvoiceDate := some nd
    isCancelled := false } with hni
  have hid : maxInvoiceId db.invoices + 1 ≠ orig.id := by
    have := mem_id_le_maxInvoiceId hmem
    omega
  refine ⟨{ newInv with id := maxInvoiceId db.invoices + 1, isCancelled := false },
    ?_, hrec, rfl, rfl, rfl, rfl, rfl⟩
  unfold add_invoice update_invoice
  rw [List.map_append]
  simp only [List.map_cons, List.map_nil]
  rw [List.getLast?_concat]
  rw [if_neg]
  exact hid

/-- Witness for C10 on a one-invoice store holding the monthly sample. -/
theorem C10_generated_copy_pre_advance_witness :
    (generate_next_invoice
        ⟨[sampleRecurring], [], [("invoiceNumber", 1000), ("estimateNumber", 2000)]⟩
        sampleRecurring).1 = GenResult.success
    ∧ ∃ newInv : Invoice,
        ((generate_next_invoice
            ⟨[sampleRecurring], [], [("invoiceNumber", 1000), ("estimateNumber", 2000)]⟩
            sampleRecurring).2.invoices).getLast? = some newInv
        ∧ newInv.isRecurring = true
        ∧ newInv.recurrenceFrequency = sampleRecurring.recurrenceFrequency
        ∧ newInv.endDate = sampleRecurring.endDate
        ∧ newInv.nextInvoiceDate = some ⟨2024, 1, 31⟩
        ∧ newInv.invoiceDate
            = candidateNext ⟨2024, 1, 31⟩ sampleRecurring.recurrenceFrequency
        ∧ newInv.isCancelled = false :=
  C10_generated_copy_pre_advance
    ⟨[sampleRecurring], [], [("invoiceNumber", 1000), ("estimateNumber", 2000)]⟩
    sampleRecurring ⟨2024, 1, 31⟩ 1000
    (by simp)
    rfl
    rfl
    (by intro ed h; simp [sampleRecurring, sampleInvoice] at h)
    (by simp [lookupCounter, List.find?])


end Invoicing
